import Mathlib

/-!
Shallow embedding of the leafletviz visual plugin (`src/visual.ts`).

Numeric scores are modelled as rationals (`ℚ`); the JavaScript `Math`
operations used by the code (`Math.max`, `Math.min`, `Math.floor`) are
exact on rationals.  A second model (`JsNum`) extends the rationals with
the non-finite JavaScript number values `NaN`, `Infinity` and
`-Infinity` so that the classifier's behaviour on non-finite inputs can
be settled faithfully.  JavaScript `Map` objects are modelled as
association lists with `Map.set` insertion-order semantics, and
JavaScript `undefined` results are modelled with `Option`.
-/

/-- The fixed 10-color array of `Visual.getColorByScore`
(`src/visual.ts` lines 224-227). -/
def colors : List String :=
  ["#FF0000", "#FF3800", "#FF7000", "#FFA800", "#FFE000",
   "#E0FF00", "#A8FF00", "#70FF00", "#38FF00", "#00FF00"]

/-- JavaScript `undefined`, as the result of an out-of-bounds array read. -/
def jsUndefined : String := "undefined"

/-- `Visual.getColorByScore` (`src/visual.ts` lines 219-230), for finite
numeric scores.  `normalized = Math.max(0, Math.min(1, score))`,
`index = Math.floor(normalized * 10)`,
`clampedIndex = Math.max(0, Math.min(9, index))`, result
`colors[clampedIndex]` (out-of-bounds indexing would give `undefined`). -/
def getColorByScore (score : ℚ) : String :=
  let normalized : ℚ := max 0 (min 1 score)
  let index : ℤ := ⌊normalized * 10⌋
  let clampedIndex : ℤ := max 0 (min 9 index)
  (colors.get? clampedIndex.toNat).getD jsUndefined

/-- The bucket index in the words of the spec: `floor(clamp(s,0,1)*10)`
clamped to `[0,9]`. -/
def specBucketIndex (s : ℚ) : ℤ :=
  max 0 (min 9 ⌊(max 0 (min 1 s)) * 10⌋)

/-- A JavaScript number: a finite rational, or one of the non-finite
values `NaN`, `Infinity`, `-Infinity`. -/
inductive JsNum
  | num (q : ℚ)
  | nan
  | inf
  | negInf
deriving DecidableEq, Repr

/-- `Math.min` on two JavaScript numbers: `NaN` if either argument is
`NaN`, otherwise the usual minimum with the infinities at the ends. -/
def jsMin : JsNum → JsNum → JsNum
  | .nan, _ => .nan
  | _, .nan => .nan
  | .negInf, _ => .negInf
  | _, .negInf => .negInf
  | .inf, b => b
  | a, .inf => a
  | .num a, .num b => .num (min a b)

/-- `Math.max` on two JavaScript numbers. -/
def jsMax : JsNum → JsNum → JsNum
  | .nan, _ => .nan
  | _, .nan => .nan
  | .inf, _ => .inf
  | _, .inf => .inf
  | .negInf, b => b
  | a, .negInf => a
  | .num a, .num b => .num (max a b)

/-- Multiplication by the literal `10`. -/
def jsMulTen : JsNum → JsNum
  | .nan => .nan
  | .inf => .inf
  | .negInf => .negInf
  | .num q => .num (q * 10)

/-- `Math.floor` on a JavaScript number. -/
def jsFloor : JsNum → JsNum
  | .nan => .nan
  | .inf => .inf
  | .negInf => .negInf
  | .num q => .num (⌊q⌋ : ℚ)

/-- JavaScript array indexing `l[i]` with a numeric index: an element
for a non-negative integral index in range, `undefined` (`none`)
otherwise (in particular for `NaN` and the infinities). -/
def jsIndex (l : List String) : JsNum → Option String
  | .num q => if q.den = 1 ∧ 0 ≤ q.num then l.get? q.num.toNat else none
  | _ => none

/-- `Visual.getColorByScore` over full JavaScript number semantics
(`src/visual.ts` lines 219-230): the same three steps, with the array
read modelled by `jsIndex` (so an out-of-range or non-integral index
yields `undefined`, i.e. `none`). -/
def getColorByScoreJs (score : JsNum) : Option String :=
  let normalized := jsMax (.num 0) (jsMin (.num 1) score)
  let index := jsFloor (jsMulTen normalized)
  let clampedIndex := jsMax (.num 0) (jsMin (.num 9) index)
  jsIndex colors clampedIndex

/-- `Array.prototype.join(",")` on a list of strings
(`src/visual.ts` line 348). -/
def joinComma : List String → String
  | [] => ""
  | [c] => c
  | c :: c2 :: rest => c ++ "," ++ joinComma (c2 :: rest)

/-- The per-code quoting `code => `'${code}'`` of `src/visual.ts`
line 348: the code is wrapped in single quotes with no escaping. -/
def quoteCode (code : String) : String := "\x27" ++ code ++ "\x27"

/-- The `where` filter string of `src/visual.ts` lines 348-352:
`sa1_code_2021 IN (${sa1s})` where `sa1s` joins the quoted codes with
commas. -/
def buildWhere (saones : List String) : String :=
  "sa1_code_2021 IN (" ++ joinComma (saones.map quoteCode) ++ ")"

/-- A selection identifier, as built by
`createSelectionIdBuilder().withCategory(categorical.categories[0], i)`
(`src/visual.ts` lines 114-116): an opaque token keyed by the category
column and the row index. -/
structure SelId where
  column : List String
  row : ℕ
deriving DecidableEq, Repr

/-- The `categorical` part of a host data view: the category columns
(each a list of values, read as strings) and the numeric value columns.
A missing `values` array is modelled as the empty list (the code only
asks whether it is non-empty). -/
structure DVCategorical where
  categories : List (List String)
  values : List (List ℚ)
deriving DecidableEq, Repr

/-- The fields of `Visual` touched by the data-binding part of
`Visual.update` (`src/visual.ts` lines 50-57): the current area codes,
candidate labels, Score Table and Selection Table. -/
structure VisualState where
  saones : List String
  cands : List String
  scoreMap : List (String × Option ℚ)
  selectionIdMap : List (String × SelId)
deriving DecidableEq, Repr

/-- JavaScript `Map.prototype.set`: replace the value in place when the
key is present (keeping insertion order), otherwise append the new
entry. -/
def jsSet {α : Type} (m : List (String × α)) (k : String) (v : α) :
    List (String × α) :=
  if m.any (fun p => p.1 == k) then
    m.map (fun p => if p.1 == k then (k, v) else p)
  else
    m ++ [(k, v)]

/-- The key sequence of a modelled JavaScript `Map`. -/
def jsKeys {α : Type} (m : List (String × α)) : List String :=
  m.map Prod.fst

/-- JavaScript `Map.prototype.get`: the stored value, or `undefined`
(`none`). -/
def jsGet {α : Type} (m : List (String × α)) (k : String) : Option α :=
  (m.find? (fun p => p.1 == k)).map Prod.snd

/-- The loop of `src/visual.ts` lines 108-118: for each index `i` into
the stored area codes, `scoreMap.set(sa1Code, scores[i])` and
`selectionIdMap.set(sa1Code, selectionId)`.  A read `scores[i]` past the
end of the scores array is JavaScript `undefined`, modelled by
`List.get?`. -/
def bindRows (catCol : List String) (scores : List ℚ) :
    ℕ → List String →
    List (String × Option ℚ) × List (String × SelId) →
    List (String × Option ℚ) × List (String × SelId)
  | _, [], maps => maps
  | i, code :: rest, (sm, im) =>
      bindRows catCol scores (i + 1) rest
        (jsSet sm code (scores.get? i), jsSet im code ⟨catCol, i⟩)

/-- How a call to `Visual.update` exits (which `console.log`, if any,
and whether an exception is thrown). -/
inductive UpdateOutcome
  | noData
  | notEnoughCategories
  | typeError
  | completed
deriving DecidableEq, Repr

/-- The data-binding part of `Visual.update` (`src/visual.ts` lines
82-121).  `dv = none` models `!dataView || !dataView.categorical`
(logged `No data`, return).  Fewer than 1 category column is logged
`Not enough categories` (return).  Reading
`categorical.categories[1].values` when only one category column exists
throws a `TypeError` before any field is assigned.  Otherwise `cands`
and `saones` are replaced (`String(code)` is the identity on the string
values of the model); when at least one numeric value column is present
the two maps are cleared and rebuilt by the row loop.  The trailing
layer refresh (lines 124-127) touches none of these fields and is
modelled separately. -/
def update (s : VisualState) (dv : Option DVCategorical) :
    VisualState × UpdateOutcome :=
  match dv with
  | none => (s, .noData)
  | some categorical =>
    if categorical.categories.length < 1 then (s, .notEnoughCategories)
    else
      match categorical.categories.get? 1 with
      | none => (s, .typeError)
      | some candsCol =>
        let saonesNew := categorical.categories.headD []
        let s1 : VisualState := { s with cands := candsCol, saones := saonesNew }
        if 0 < categorical.values.length then
          let scores := categorical.values.headD []
          let maps := bindRows saonesNew scores 0 s1.saones ([], [])
          ({ s1 with scoreMap := maps.1, selectionIdMap := maps.2 }, .completed)
        else
          (s1, .completed)

/-- The map/layer objects touched by `Visual.updateSaonesLayer`
(`src/visual.ts` lines 277-287, 350-356): whether `this.fglayer` and
`this.layerControl` exist, whether the map currently has the feature
group, how many sub-layers the group holds, and how many times a group
was created (`L.featureGroup()`) and registered
(`layerControl.addOverlay`). -/
structure LayerState where
  fglayer : Bool
  mapHasFg : Bool
  layerControl : Bool
  fgLayers : ℕ
  fgCreates : ℕ
  overlayRegs : ℕ
deriving DecidableEq, Repr

/-- `Visual.updateSaonesLayer` (`src/visual.ts` lines 277-287 and
350-356), restricted to its layer bookkeeping.  If `this.fglayer`
exists it is cleared in place — but only when the map still has it;
otherwise a fresh feature group is created, added to the map, and
registered with the layer control when (and only when) the control
already exists.  Finally the new remote Esri layer is added to the
group. -/
def updateSaonesLayer (s : LayerState) : LayerState :=
  let s2 :=
    if s.fglayer then
      if s.mapHasFg then { s with fgLayers := 0 } else s
    else
      let s1 := { s with fglayer := true, mapHasFg := true,
                         fgCreates := s.fgCreates + 1 }
      if s1.layerControl then { s1 with overlayRegs := s1.overlayRegs + 1 }
      else s1
  { s2 with fgLayers := s2.fgLayers + 1 }

/-- The two operations that can touch the layer bookkeeping: a
`updateSaonesLayer` refresh, and the creation of the grouped layer
control in `Visual.initLayersAndUI` (`src/visual.ts` lines 200-207),
which runs deferred via `requestAnimationFrame`. -/
inductive LayerOp
  | refresh
  | createControl
deriving DecidableEq, Repr

/-- Apply one layer operation. -/
def applyLayerOp (s : LayerState) : LayerOp → LayerState
  | .refresh => updateSaonesLayer s
  | .createControl => { s with layerControl := true }

/-- Run a sequence of layer operations. -/
def runLayerOps (s : LayerState) (ops : List LayerOp) : LayerState :=
  ops.foldl applyLayerOp s

/-- The state of the visual before any layer work: no feature group, no
layer control, nothing created or registered. -/
def initLayerState : LayerState :=
  { fglayer := false, mapHasFg := false, layerControl := false,
    fgLayers := 0, fgCreates := 0, overlayRegs := 0 }

/-- The timer bookkeeping of `Visual.startAutoRefresh`
(`src/visual.ts` lines 63, 367-370): the list of currently active
interval timers (by id), the stored `this.autoRefreshTimer` field, and
the next id `window.setInterval` would hand out (browser interval ids
are positive integers). -/
structure TimerState where
  active : List ℕ
  autoRefreshTimer : Option ℕ
  nextId : ℕ
deriving DecidableEq, Repr

/-- `clearInterval(id)`: the timer with that id (if any) stops being
active; clearing an already-cleared id is a no-op. -/
def clearIntervalFn (s : TimerState) (id : ℕ) : TimerState :=
  { s with active := s.active.filter (fun t => t ≠ id) }

/-- `Visual.startAutoRefresh` (`src/visual.ts` lines 367-370):
`if (this.autoRefreshTimer) clearInterval(this.autoRefreshTimer)` (the
truthiness test fails on `null`, modelled by `getD 0 = 0`), then
`if (ms > 0)` install a fresh interval timer and store its id. -/
def startAutoRefresh (s : TimerState) (ms : ℤ) : TimerState :=
  let t := s.autoRefreshTimer.getD 0
  let s1 := if t ≠ 0 then clearIntervalFn s t else s
  if 0 < ms then
    { s1 with active := s1.active ++ [s1.nextId],
              autoRefreshTimer := some s1.nextId,
              nextId := s1.nextId + 1 }
  else
    s1

/-- Timer state at construction: no timers, `autoRefreshTimer = null`. -/
def initTimerState : TimerState :=
  { active := [], autoRefreshTimer := none, nextId := 1 }

/-- Run a sequence of `startAutoRefresh` calls. -/
def runStarts (s : TimerState) (mss : List ℤ) : TimerState :=
  mss.foldl startAutoRefresh s

/-- The Score Table entries produced by the row loop starting at row
index `i`: one entry per area code, mapping it to `scores[i]`. -/
def scoreEntries (scores : List ℚ) : ℕ → List String → List (String × Option ℚ)
  | _, [] => []
  | i, code :: rest => (code, scores.get? i) :: scoreEntries scores (i + 1) rest

/-- The Selection Table entries produced by the row loop starting at row
index `i`: one entry per area code, keyed by (category column, row
index). -/
def selEntries (catCol : List String) : ℕ → List String → List (String × SelId)
  | _, [] => []
  | i, code :: rest => (code, ⟨catCol, i⟩) :: selEntries catCol (i + 1) rest

/-- A visual state left over from an earlier batch, with one entry
keyed `OLD` in each table. -/
def c1State : VisualState :=
  { saones := ["OLD"], cands := ["oldcand"],
    scoreMap := [("OLD", some 1)],
    selectionIdMap := [("OLD", ⟨["OLD"], 0⟩)] }

/-- A data view with two categorical columns and no numeric column. -/
def c1DV : DVCategorical :=
  { categories := [["A"], ["B"]], values := [] }

/-- A visual state left over from an earlier batch (for the rebuild
example). -/
def c4State : VisualState :=
  { saones := ["OLD"], cands := ["oldcand"],
    scoreMap := [("OLD", some 1)],
    selectionIdMap := [("OLD", ⟨["OLD"], 0⟩)] }

/-- The spec example batch: rows `(A, cand, 0.2)` and `(B, cand, 0.8)`. -/
def c4DV : DVCategorical :=
  { categories := [["A", "B"], ["cand", "cand"]], values := [[1/5, 4/5]] }

/-- A second batch disjoint from `c4DV`: rows `(C, cand, 1)` and
`(D, cand, 0)`. -/
def c4DVsecond : DVCategorical :=
  { categories := [["C", "D"], ["cand", "cand"]], values := [[1, 0]] }

/-- A visual state whose two tables share the key set `{OLD}`. -/
def c5State : VisualState :=
  { saones := ["OLD"], cands := ["oldcand"],
    scoreMap := [("OLD", some 1)],
    selectionIdMap := [("OLD", ⟨["OLD"], 0⟩)] }

/-- A data view with duplicate area codes in one batch. -/
def c5DV : DVCategorical :=
  { categories := [["A", "B", "A"], ["x", "y", "z"]], values := [[0, 1, 1]] }

/-- A visual state left over from an earlier batch. -/
def c10State : VisualState :=
  { saones := ["OLD"], cands := ["oldcand"],
    scoreMap := [("OLD", some 1)],
    selectionIdMap := [("OLD", ⟨["OLD"], 0⟩)] }

/-- A data view with exactly one categorical column and no numeric
column. -/
def c10DV : DVCategorical :=
  { categories := [["NEW"]], values := [] }

/-- Invariant tying the layer counters together: the group was created
exactly once iff it exists, registrations never exceed creations, and a
group created by `updateSaonesLayer` is always on the map (nothing in
the code removes it). -/
def LayerInv (s : LayerState) : Prop :=
  s.fgCreates = (if s.fglayer then 1 else 0) ∧
  s.overlayRegs ≤ s.fgCreates ∧
  (s.fglayer = true → s.mapHasFg = true)

/-- Invariant of the refresh scheduler: interval ids are nonzero, at
most one timer is active, and any active timer is the one stored in
`autoRefreshTimer`. -/
def TimerInv (s : TimerState) : Prop :=
  s.nextId ≠ 0 ∧ s.active.length ≤ 1 ∧
  (∀ id ∈ s.active, s.autoRefreshTimer = some id ∧ id ≠ 0)

/-! ## Score Classifier lemmas -/

theorem specBucketIndex_nonneg (s : ℚ) : 0 ≤ specBucketIndex s :=
  le_max_left 0 _

theorem specBucketIndex_le_nine (s : ℚ) : specBucketIndex s ≤ 9 :=
  max_le (by norm_num) (min_le_left _ _)

theorem colors_length : colors.length = 10 := rfl

theorem specBucketIndex_toNat_lt (s : ℚ) :
    (specBucketIndex s).toNat < colors.length := by
  have h : (specBucketIndex s).toNat ≤ 9 :=
    Int.toNat_le.mpr (by exact_mod_cast specBucketIndex_le_nine s)
  have hc := colors_length
  omega

/-- The classifier returns exactly the color stored at the spec's bucket
index. -/
theorem getColorByScore_eq_bucket (s : ℚ) :
    colors.get? (specBucketIndex s).toNat = some (getColorByScore s) := by
  have hlt := specBucketIndex_toNat_lt s
  have h := List.get?_eq_get hlt
  have he : getColorByScore s =
      (colors.get? (specBucketIndex s).toNat).getD jsUndefined := rfl
  rw [he, h, Option.getD_some]

/-- Claim C2: for every numeric score `s`, the Score Classifier returns
the color at bucket index `floor(clamp(s,0,1)*10)` clamped to `[0,9]` in
the fixed 10-color array; moreover `classifier(-0.5) = classifier(0.0)`,
`classifier(1.5) = classifier(1.0)`, and the scores
`[0.0, 0.05, 0.94, 1.0]` map to bucket indices `[0, 0, 9, 9]`. -/
theorem claim_C2_classifier_contract :
    (∀ s : ℚ, colors.get? (specBucketIndex s).toNat = some (getColorByScore s)) ∧
    getColorByScore (-(1/2)) = getColorByScore 0 ∧
    getColorByScore (3/2) = getColorByScore 1 ∧
    (([0, 1/20, 47/50, 1] : List ℚ).map fun s => (specBucketIndex s).toNat)
      = [0, 0, 9, 9] := by
  refine ⟨getColorByScore_eq_bucket, ?_, ?_, ?_⟩
  · norm_num [getColorByScore]
  · norm_num [getColorByScore]
  · simp only [List.map]
    norm_num [specBucketIndex, Int.toNat_ofNat]
    decide

/-- Claim C7: for all scores in `[0,1]` the classifier returns one of
exactly 10 fixed colors, and the bucket index is monotone. -/
theorem claim_C7_classifier_total_monotone :
    colors.length = 10 ∧
    (∀ s : ℚ, getColorByScore s ∈ colors) ∧
    (∀ s1 s2 : ℚ, 0 ≤ s1 → s1 ≤ s2 → s2 ≤ 1 →
      specBucketIndex s1 ≤ specBucketIndex s2) := by
  refine ⟨rfl, ?_, ?_⟩
  · intro s
    exact List.get?_mem (getColorByScore_eq_bucket s)
  · intro s1 s2 _ h12 _
    unfold specBucketIndex
    have hf : ⌊(max 0 (min 1 s1)) * 10⌋ ≤ ⌊(max 0 (min 1 s2)) * 10⌋ :=
      Int.floor_mono (mul_le_mul_of_nonneg_right
        (max_le_max (le_refl 0) (min_le_min (le_refl 1) h12)) (by norm_num))
    exact max_le_max (le_refl 0) (min_le_min (le_refl 9) hf)

theorem claim_C7_witness :
    ((0:ℚ) ≤ 0 ∧ (0:ℚ) ≤ 1 ∧ (1:ℚ) ≤ 1) ∧
      specBucketIndex 0 ≤ specBucketIndex 1 :=
  ⟨⟨le_refl 0, by decide, le_refl 1⟩,
   claim_C7_classifier_total_monotone.2.2 0 1 (le_refl 0) (by decide) (le_refl 1)⟩

/-- Claim C8 counterexample: for the numeric input `NaN` the classifier
does not return a color at all — the clamp chain propagates `NaN`, the
array is indexed at `NaN`, and the result is `undefined`. -/
theorem claim_C8_counterexample : getColorByScoreJs JsNum.nan = none := rfl

/-- Claim C8 (amended): for every JavaScript numeric input other than
`NaN` — including out-of-range and infinite values — the computed index
is a valid position in the 10-color array and a color is returned. -/
theorem claim_C8_total_except_nan (x : JsNum) (hx : x ≠ JsNum.nan) :
    ∃ c, getColorByScoreJs x = some c ∧ c ∈ colors := by
  match x with
  | .nan => exact absurd rfl hx
  | .inf =>
    refine ⟨"#00FF00", ?_, by decide⟩
    have h1 : getColorByScoreJs JsNum.inf =
        jsIndex colors
          (JsNum.num (max 0 (min 9 ((⌊(max (0:ℚ) 1) * 10⌋ : ℤ) : ℚ)))) := rfl
    rw [h1]
    norm_num [jsIndex, Int.toNat_ofNat]
    decide
  | .negInf =>
    refine ⟨"#FF0000", ?_, by decide⟩
    have h1 : getColorByScoreJs JsNum.negInf =
        jsIndex colors
          (JsNum.num (max 0 (min 9 ((⌊(0:ℚ) * 10⌋ : ℤ) : ℚ)))) := rfl
    rw [h1]
    norm_num [jsIndex, Int.toNat_ofNat]
    decide
  | .num q =>
    have h1 : getColorByScoreJs (JsNum.num q) =
        jsIndex colors
          (JsNum.num (max 0 (min 9 ((⌊(max 0 (min 1 q)) * 10⌋ : ℤ) : ℚ)))) := rfl
    have h2 : (max 0 (min 9 ((⌊(max 0 (min 1 q)) * 10⌋ : ℤ) : ℚ)))
        = ((specBucketIndex q : ℤ) : ℚ) := by
      unfold specBucketIndex
      push_cast
      rfl
    have h3 : jsIndex colors (JsNum.num ((specBucketIndex q : ℤ) : ℚ))
        = if ((specBucketIndex q : ℤ) : ℚ).den = 1 ∧
              0 ≤ ((specBucketIndex q : ℤ) : ℚ).num then
            colors.get? ((specBucketIndex q : ℤ) : ℚ).num.toNat
          else none := rfl
    have hlt := specBucketIndex_toNat_lt q
    have hcond : ((specBucketIndex q : ℤ) : ℚ).den = 1 ∧
        0 ≤ ((specBucketIndex q : ℤ) : ℚ).num := by
      refine ⟨Rat.den_intCast _, ?_⟩
      rw [Rat.num_intCast]
      exact specBucketIndex_nonneg q
    refine ⟨colors.get ⟨(specBucketIndex q).toNat, hlt⟩, ?_, List.get_mem _ _ _⟩
    rw [h1, h2, h3, if_pos hcond, Rat.num_intCast]
    exact List.get?_eq_get hlt

theorem claim_C8_witness :
    JsNum.inf ≠ JsNum.nan ∧
      ∃ c, getColorByScoreJs JsNum.inf = some c ∧ c ∈ colors :=
  ⟨by decide, claim_C8_total_except_nan JsNum.inf (by decide)⟩

/-! ## Filter building (Boundary Layer Manager query) -/

/-- Claim C3: the filter string for the remote query is
`sa1_code_2021 IN ('code1','code2',...)` — each code wrapped in single
quotes and joined by commas — and a code containing an embedded single
quote (e.g. `2'3`) is inserted verbatim with no escaping. -/
theorem claim_C3_filter_string :
    (∀ c : String, buildWhere [c] = "sa1_code_2021 IN (\x27" ++ c ++ "\x27)") ∧
    (∀ c1 c2 : String,
      buildWhere [c1, c2]
        = "sa1_code_2021 IN (\x27" ++ c1 ++ "\x27,\x27" ++ c2 ++ "\x27)") ∧
    buildWhere ["1", "2\x273"] = "sa1_code_2021 IN (\x271\x27,\x272\x273\x27)" := by
  refine ⟨?_, ?_, rfl⟩
  · intro c
    have e1 : ("sa1_code_2021 IN (\x27" : String) = "sa1_code_2021 IN (" ++ "\x27" := rfl
    have e2 : ("\x27)" : String) = "\x27" ++ ")" := rfl
    rw [e1, e2]
    simp only [buildWhere, joinComma, quoteCode, List.map, String.append_assoc]
  · intro c1 c2
    have e1 : ("sa1_code_2021 IN (\x27" : String) = "sa1_code_2021 IN (" ++ "\x27" := rfl
    have e2 : ("\x27,\x27" : String) = "\x27" ++ ("," ++ "\x27") := rfl
    have e3 : ("\x27)" : String) = "\x27" ++ ")" := rfl
    rw [e1, e2, e3]
    simp only [buildWhere, joinComma, quoteCode, List.map, String.append_assoc]

/-! ## Map bookkeeping lemmas -/

theorem any_key_eq {α : Type} (m : List (String × α)) (k : String) :
    (m.any fun p => p.1 == k) = (jsKeys m).any (fun x => x == k) := by
  induction m with
  | nil => rfl
  | cons p ps ih =>
      simp only [jsKeys, List.map_cons, List.any_cons] at ih ⊢
      rw [ih]

theorem jsKeys_setInPlace {α : Type} (m : List (String × α)) (k : String) (v : α) :
    jsKeys (m.map fun p => if p.1 == k then (k, v) else p) = jsKeys m := by
  unfold jsKeys
  rw [List.map_map]
  apply List.map_congr_left
  intro p _
  by_cases hpk : p.1 == k
  · have : p.1 = k := eq_of_beq hpk
    simp [Function.comp, hpk, this]
  · simp [Function.comp, hpk]

theorem jsKeys_jsSet {α : Type} (m : List (String × α)) (k : String) (v : α) :
    jsKeys (jsSet m k v) =
      if (m.any fun p => p.1 == k) then jsKeys m else jsKeys m ++ [k] := by
  unfold jsSet
  by_cases h : (m.any fun p => p.1 == k)
  · rw [if_pos h, if_pos h]
    exact jsKeys_setInPlace m k v
  · rw [if_neg h, if_neg h]
    unfold jsKeys
    rw [List.map_append]
    rfl

theorem jsKeys_jsSet_congr {α β : Type} {m1 : List (String × α)}
    {m2 : List (String × β)} (k : String) (v1 : α) (v2 : β)
    (h : jsKeys m1 = jsKeys m2) :
    jsKeys (jsSet m1 k v1) = jsKeys (jsSet m2 k v2) := by
  rw [jsKeys_jsSet, jsKeys_jsSet, any_key_eq, any_key_eq, h]

theorem bindRows_keys (catCol : List String) (scores : List ℚ) :
    ∀ (codes : List String) (i : ℕ) (sm : List (String × Option ℚ))
      (im : List (String × SelId)),
      jsKeys sm = jsKeys im →
      jsKeys (bindRows catCol scores i codes (sm, im)).1
        = jsKeys (bindRows catCol scores i codes (sm, im)).2 := by
  intro codes
  induction codes with
  | nil => intro i sm im h; exact h
  | cons c cs ih =>
      intro i sm im h
      simp only [bindRows]
      exact ih (i + 1) _ _ (jsKeys_jsSet_congr c _ _ h)

/-- Claim C5: after every update call, the Selection Table has exactly
the same key set as the Score Table — every update preserves the
invariant that the two maps are keyed by the same area codes (here in
the strong form: the key sequences are equal). -/
theorem claim_C5_lockstep_keys (s : VisualState) (dv : Option DVCategorical)
    (h : jsKeys s.scoreMap = jsKeys s.selectionIdMap) :
    jsKeys (update s dv).1.scoreMap = jsKeys (update s dv).1.selectionIdMap := by
  match dv with
  | none => exact h
  | some categorical =>
    unfold update
    by_cases h1 : categorical.categories.length < 1
    · simp only [if_pos h1]
      exact h
    · simp only [if_neg h1]
      cases h2 : categorical.categories.get? 1 with
      | none => exact h
      | some candsCol =>
          by_cases h3 : 0 < categorical.values.length
          · simp only [if_pos h3]
            exact bindRows_keys _ _ _ 0 [] [] rfl
          · simp only [if_neg h3]
            exact h

theorem claim_C5_witness :
    jsKeys c5State.scoreMap = jsKeys c5State.selectionIdMap ∧
      jsKeys (update c5State (some c5DV)).1.scoreMap
        = jsKeys (update c5State (some c5DV)).1.selectionIdMap :=
  ⟨rfl, claim_C5_lockstep_keys c5State (some c5DV) rfl⟩

theorem jsSet_append_of_not_mem {α : Type} (m : List (String × α)) (k : String)
    (v : α) (h : ∀ p ∈ m, p.1 ≠ k) : jsSet m k v = m ++ [(k, v)] := by
  unfold jsSet
  have hany : (m.any fun p => p.1 == k) = false := by
    rw [List.any_eq_false]
    intro p hp
    simpa using h p hp
  rw [if_neg (by simp [hany])]

theorem bindRows_eq_entries (catCol : List String) (scores : List ℚ) :
    ∀ (codes : List String) (i : ℕ) (sm : List (String × Option ℚ))
      (im : List (String × SelId)),
      codes.Nodup →
      (∀ c ∈ codes, ∀ p ∈ sm, p.1 ≠ c) →
      (∀ c ∈ codes, ∀ p ∈ im, p.1 ≠ c) →
      bindRows catCol scores i codes (sm, im)
        = (sm ++ scoreEntries scores i codes, im ++ selEntries catCol i codes) := by
  intro codes
  induction codes with
  | nil =>
      intro i sm im _ _ _
      simp [bindRows, scoreEntries, selEntries]
  | cons c cs ih =>
      intro i sm im hnd hsm him
      have hc_sm : ∀ p ∈ sm, p.1 ≠ c := hsm c (List.mem_cons_self c cs)
      have hc_im : ∀ p ∈ im, p.1 ≠ c := him c (List.mem_cons_self c cs)
      have hcs_notin : c ∉ cs := (List.nodup_cons.mp hnd).1
      have hnd2 : cs.Nodup := (List.nodup_cons.mp hnd).2
      have hsm2 : ∀ c2 ∈ cs, ∀ p ∈ sm ++ [(c, scores.get? i)], p.1 ≠ c2 := by
        intro c2 hc2 p hp
        rcases List.mem_append.mp hp with hpl | hpr
        · exact hsm c2 (List.mem_cons_of_mem c hc2) p hpl
        · have hpc : p = (c, scores.get? i) := List.mem_singleton.mp hpr
          rw [hpc]
          intro hcontra
          have hc2c : c = c2 := hcontra
          exact hcs_notin (by rw [hc2c]; exact hc2)
      have him2 : ∀ c2 ∈ cs, ∀ p ∈ im ++ [((c : String), (⟨catCol, i⟩ : SelId))], p.1 ≠ c2 := by
        intro c2 hc2 p hp
        rcases List.mem_append.mp hp with hpl | hpr
        · exact him c2 (List.mem_cons_of_mem c hc2) p hpl
        · have hpc : p = (c, (⟨catCol, i⟩ : SelId)) := List.mem_singleton.mp hpr
          rw [hpc]
          intro hcontra
          have hc2c : c = c2 := hcontra
          exact hcs_notin (by rw [hc2c]; exact hc2)
      simp only [bindRows]
      rw [jsSet_append_of_not_mem sm c _ hc_sm,
          jsSet_append_of_not_mem im c _ hc_im,
          ih (i + 1) _ _ hnd2 hsm2 him2]
      simp [scoreEntries, selEntries, List.append_assoc]

theorem scoreEntries_eq_zip (scores : List ℚ) :
    ∀ (codes : List String) (i : ℕ), i + codes.length ≤ scores.length →
      scoreEntries scores i codes = codes.zip ((scores.drop i).map some) := by
  intro codes
  induction codes with
  | nil => intro i _; simp [scoreEntries]
  | cons c cs ih =>
      intro i h
      have hi : i < scores.length := by
        simp only [List.length_cons] at h
        omega
      have hdrop : scores.drop i = scores.get ⟨i, hi⟩ :: scores.drop (i + 1) :=
        List.drop_eq_get_cons hi
      simp only [scoreEntries, hdrop, List.map_cons, List.zip_cons_cons]
      rw [List.get?_eq_get hi,
          ih (i + 1) (by simp only [List.length_cons] at h; omega)]

theorem selEntries_keys (catCol : List String) :
    ∀ (codes : List String) (i : ℕ), jsKeys (selEntries catCol i codes) = codes := by
  intro codes
  induction codes with
  | nil => intro i; rfl
  | cons c cs ih =>
      intro i
      simp only [selEntries, jsKeys, List.map_cons]
      rw [show List.map Prod.fst (selEntries catCol (i + 1) cs) = jsKeys (selEntries catCol (i + 1) cs) from rfl, ih]

/-- Claim C4: after a Data Binder call whose preconditions hold
(at least two category columns, a numeric column, duplicate-free area
codes with a score per row), the Score Table equals exactly the map
from each row's area code to its score, and the Selection Table has
exactly the same area codes as keys; since the result does not depend
on the previous tables, a second call with a disjoint row set fully
replaces both tables. -/
theorem claim_C4_rebuild (s : VisualState) (c0 candsCol : List String)
    (rest : List (List String)) (sc : List ℚ) (restV : List (List ℚ))
    (hnd : c0.Nodup) (hlen : c0.length ≤ sc.length) :
    (update s (some ⟨c0 :: candsCol :: rest, sc :: restV⟩)).1.scoreMap
        = c0.zip (sc.map some) ∧
    jsKeys (update s (some ⟨c0 :: candsCol :: rest, sc :: restV⟩)).1.selectionIdMap
        = c0 := by
  have hupd : update s (some ⟨c0 :: candsCol :: rest, sc :: restV⟩)
      = ({ s with
            cands := candsCol
            saones := c0
            scoreMap := (bindRows c0 sc 0 c0 ([], [])).1
            selectionIdMap := (bindRows c0 sc 0 c0 ([], [])).2 },
         UpdateOutcome.completed) := by
    simp [update]
  rw [hupd]
  rw [bindRows_eq_entries c0 sc c0 0 [] [] hnd (by simp) (by simp)]
  simp only [List.nil_append]
  constructor
  · rw [scoreEntries_eq_zip sc c0 0 (by simpa using hlen)]
    rw [List.drop_zero]
  · exact selEntries_keys c0 c0 0

theorem claim_C4_witness :
    ((["C", "D"] : List String).Nodup ∧
      (["C", "D"] : List String).length ≤ ([1, 0] : List ℚ).length) ∧
    (update c4State (some c4DV)).1.scoreMap
        = ["A", "B"].zip (([1/5, 4/5] : List ℚ).map some) ∧
    (update (update c4State (some c4DV)).1 (some c4DVsecond)).1.scoreMap
        = ["C", "D"].zip (([1, 0] : List ℚ).map some) ∧
    jsKeys (update (update c4State (some c4DV)).1 (some c4DVsecond)).1.selectionIdMap
        = ["C", "D"] :=
  ⟨⟨by decide, by decide⟩,
   (claim_C4_rebuild c4State ["A", "B"] ["cand", "cand"] [] [1/5, 4/5] []
      (by decide) (by decide)).1,
   (claim_C4_rebuild (update c4State (some c4DV)).1 ["C", "D"] ["cand", "cand"]
      [] [1, 0] [] (by decide) (by decide)).1,
   (claim_C4_rebuild (update c4State (some c4DV)).1 ["C", "D"] ["cand", "cand"]
      [] [1, 0] [] (by decide) (by decide)).2⟩

/-- Claim C1 counterexample: a data view satisfying the claim's
precondition (two categorical columns, no numeric column) on which the
binder neither reports "no data" nor leaves the stored state untouched —
it completes and replaces `saones`. -/
theorem claim_C1_counterexample :
    (update c1State (some c1DV)).2 = UpdateOutcome.completed ∧
    (update c1State (some c1DV)).1.saones = ["A"] ∧
    c1State.saones ≠ ["A"] := by
  refine ⟨rfl, rfl, ?_⟩
  decide

/-- Claim C1 (amended): when the data view is missing (or has no
categorical section) the binder reports "No data" and performs no
update; when the categorical section has no category columns it reports
"Not enough categories" and performs no update; and whenever the numeric
column is absent the Score Table and Selection Table retain exactly the
entries they had before the call (even though, with at least one
category column present, `saones`/`cands` are still replaced). -/
theorem claim_C1_guards (s : VisualState) (dv : Option DVCategorical) :
    (dv = none → update s dv = (s, UpdateOutcome.noData)) ∧
    (∀ c, dv = some c → c.categories = [] →
      update s dv = (s, UpdateOutcome.notEnoughCategories)) ∧
    (∀ c, dv = some c → c.values = [] →
      (update s dv).1.scoreMap = s.scoreMap ∧
      (update s dv).1.selectionIdMap = s.selectionIdMap) := by
  refine ⟨?_, ?_, ?_⟩
  · intro h
    rw [h]
    rfl
  · intro c hdv hcat
    rw [hdv]
    simp [update, hcat]
  · intro c hdv hval
    rw [hdv]
    unfold update
    by_cases h1 : c.categories.length < 1
    · have hc : c.categories = [] := List.length_eq_zero.mp (by omega)
      simp [hc]
    · simp only [if_neg h1]
      cases h2 : c.categories.get? 1 with
      | none => simp
      | some candsCol => simp [hval]

theorem claim_C1_witness :
    ((some c1DV : Option DVCategorical) = some c1DV ∧ c1DV.values = []) ∧
    (update c1State (some c1DV)).1.scoreMap = c1State.scoreMap ∧
    (update c1State (some c1DV)).1.selectionIdMap = c1State.selectionIdMap :=
  ⟨⟨rfl, rfl⟩, (claim_C1_guards c1State (some c1DV)).2.2 c1DV rfl rfl⟩

/-- Claim C10 counterexample: a data view with exactly one category
column (so "at least the first category column" holds) and no numeric
column, on which `saones` is *not* replaced with the new batch's codes —
the read of the second category column throws first. -/
theorem claim_C10_counterexample :
    (update c10State (some c10DV)).1.saones = ["OLD"] ∧
    (update c10State (some c10DV)).1.saones ≠ ["NEW"] ∧
    (update c10State (some c10DV)).2 = UpdateOutcome.typeError := by
  refine ⟨rfl, ?_, rfl⟩
  decide

/-- Claim C10 (amended): for every update call whose data view has at
least *two* category columns but no numeric value column, `saones` and
`cands` are replaced with the new batch's codes and labels while
`scoreMap` and `selectionIdMap` keep their previous entries (so the code
list and the score/selection tables can afterwards describe different
batches); with exactly one category column the update instead throws
while reading the second column and changes nothing. -/
theorem claim_C10_frame (s : VisualState) (c0 candsCol : List String)
    (rest : List (List String)) :
    update s (some ⟨c0 :: candsCol :: rest, []⟩)
        = ({ s with saones := c0, cands := candsCol },
           UpdateOutcome.completed) ∧
    (∀ onlyCol : List String, ∀ vals : List (List ℚ),
      update s (some ⟨[onlyCol], vals⟩) = (s, UpdateOutcome.typeError)) := by
  constructor
  · simp [update]
  · intro onlyCol vals
    simp [update]

/-! ## Boundary Layer Manager bookkeeping -/

theorem layerInv_init : LayerInv initLayerState := by
  refine ⟨rfl, Nat.le_refl 0, ?_⟩
  intro h
  exact absurd h (by decide)

theorem applyLayerOp_preserves (s : LayerState) (op : LayerOp)
    (h : LayerInv s) : LayerInv (applyLayerOp s op) := by
  obtain ⟨h1, h2, h3⟩ := h
  cases op with
  | createControl => exact ⟨h1, h2, h3⟩
  | refresh =>
      unfold applyLayerOp updateSaonesLayer
      by_cases hf : s.fglayer
      · have hm : s.mapHasFg = true := h3 hf
        simp [hf] at h1
        simp [hf, hm, LayerInv, h1]
        omega
      · have hf0 : s.fglayer = false := by
          revert hf
          cases s.fglayer <;> simp
        simp [hf0] at h1
        have hreg : s.overlayRegs = 0 := by omega
        by_cases hc : s.layerControl
        · simp [hf0, hc, LayerInv, h1, hreg]
        · simp [hf0, hc, LayerInv, h1, hreg]

theorem runLayerOps_inv (ops : List LayerOp) :
    ∀ s, LayerInv s → LayerInv (runLayerOps s ops) := by
  induction ops with
  | nil => intro s h; exact h
  | cons op rest ih =>
      intro s h
      exact ih _ (applyLayerOp_preserves s op h)

/-- Claim C6 counterexample: the realistic first-update interleaving —
`updateSaonesLayer` runs once before the deferred `initLayersAndUI` has
created the layer control, the control is then created, and a second
refresh runs.  The group was created on the first call, but it is never
registered with the layered-control UI (0 registrations, not exactly 1
on the first call). -/
theorem claim_C6_counterexample :
    (runLayerOps initLayerState
        [LayerOp.refresh, LayerOp.createControl, LayerOp.refresh]).fgCreates = 1 ∧
    (runLayerOps initLayerState
        [LayerOp.refresh, LayerOp.createControl, LayerOp.refresh]).overlayRegs = 0 :=
  ⟨rfl, rfl⟩

/-- Claim C6 (amended): on each refresh where the layer group already
exists (and the map still holds it, which the code itself never undoes)
the group is cleared in place before the new remote layer is added, and
no new group is created; when no group exists one is created and it is
registered with the layered-control UI exactly when the control already
exists at that moment; over any sequence of operations from the initial
state the group is created at most once and registered at most once (so
a first refresh that precedes the deferred control creation leaves the
overlay unregistered). -/
theorem claim_C6_layer_group :
    (∀ s : LayerState, s.fglayer = true → s.mapHasFg = true →
      updateSaonesLayer s = { s with fgLayers := 1 }) ∧
    (∀ s : LayerState, s.fglayer = false →
      (updateSaonesLayer s).fgCreates = s.fgCreates + 1 ∧
      (updateSaonesLayer s).overlayRegs
        = s.overlayRegs + (if s.layerControl then 1 else 0)) ∧
    (∀ ops : List LayerOp,
      (runLayerOps initLayerState ops).fgCreates ≤ 1 ∧
      (runLayerOps initLayerState ops).overlayRegs ≤ 1) := by
  refine ⟨?_, ?_, ?_⟩
  · intro s hf hm
    unfold updateSaonesLayer
    simp [hf, hm]
  · intro s hf
    have hf0 : s.fglayer = false := hf
    unfold updateSaonesLayer
    by_cases hc : s.layerControl <;> simp [hf0, hc]
  · intro ops
    obtain ⟨h1, h2, h3⟩ := runLayerOps_inv ops initLayerState layerInv_init
    have hcre : (runLayerOps initLayerState ops).fgCreates ≤ 1 := by
      rw [h1]
      by_cases hg : (runLayerOps initLayerState ops).fglayer <;> simp [hg]
    exact ⟨hcre, le_trans h2 hcre⟩

theorem claim_C6_witness :
    initLayerState.fglayer = false ∧
    ((updateSaonesLayer initLayerState).fgCreates = initLayerState.fgCreates + 1 ∧
     (updateSaonesLayer initLayerState).overlayRegs
        = initLayerState.overlayRegs
            + (if initLayerState.layerControl then 1 else 0)) :=
  ⟨rfl, claim_C6_layer_group.2.1 initLayerState rfl⟩

/-! ## Refresh scheduler timer -/

theorem startAutoRefresh_spec (s : TimerState) (ms : ℤ) (h : TimerInv s) :
    TimerInv (startAutoRefresh s ms) ∧
    (0 < ms → (startAutoRefresh s ms).active = [s.nextId]) ∧
    (¬ 0 < ms → (startAutoRefresh s ms).active = []) := by
  obtain ⟨hn, hlen, hact⟩ := h
  by_cases ht : s.autoRefreshTimer.getD 0 ≠ 0
  · have haeq : ∀ a ∈ s.active, a = s.autoRefreshTimer.getD 0 := by
      intro a ha
      obtain ⟨hfield, -⟩ := hact a ha
      rw [hfield]
      rfl
    by_cases hm : 0 < ms
    · have he : startAutoRefresh s ms =
          { active := [s.nextId], autoRefreshTimer := some s.nextId,
            nextId := s.nextId + 1 } := by
        simp [startAutoRefresh, clearIntervalFn, ht, hm]
        exact haeq
      rw [he]
      refine ⟨⟨Nat.succ_ne_zero _, by simp, ?_⟩, fun _ => rfl, fun hc => absurd hm hc⟩
      intro id hid
      have : id = s.nextId := List.mem_singleton.mp hid
      rw [this]
      exact ⟨rfl, hn⟩
    · have he : startAutoRefresh s ms =
          { active := [], autoRefreshTimer := s.autoRefreshTimer,
            nextId := s.nextId } := by
        simp [startAutoRefresh, clearIntervalFn, ht, hm]
        exact haeq
      rw [he]
      refine ⟨⟨hn, by simp, ?_⟩, fun hc => absurd hc hm, fun _ => rfl⟩
      intro id hid
      exact absurd hid (List.not_mem_nil id)
  · have hae : s.active = [] := by
      have ht0 : s.autoRefreshTimer.getD 0 = 0 := not_not.mp ht
      cases hl : s.active with
      | nil => rfl
      | cons a tl =>
          exfalso
          have hmem : a ∈ s.active := by
            rw [hl]
            exact List.mem_cons_self a tl
          obtain ⟨hfield, hane⟩ := hact a hmem
          rw [hfield] at ht0
          exact hane ht0
    by_cases hm : 0 < ms
    · have he : startAutoRefresh s ms =
          { active := [s.nextId], autoRefreshTimer := some s.nextId,
            nextId := s.nextId + 1 } := by
        simp [startAutoRefresh, ht, hm, hae]
      rw [he]
      refine ⟨⟨Nat.succ_ne_zero _, by simp, ?_⟩, fun _ => rfl, fun hc => absurd hm hc⟩
      intro id hid
      have : id = s.nextId := List.mem_singleton.mp hid
      rw [this]
      exact ⟨rfl, hn⟩
    · have he : startAutoRefresh s ms = s := by
        simp [startAutoRefresh, ht, hm]
      rw [he]
      exact ⟨⟨hn, hlen, hact⟩, fun hc => absurd hc hm, fun _ => hae⟩

theorem timerInv_init : TimerInv initTimerState := by
  refine ⟨by decide, by decide, ?_⟩
  intro id hid
  exact absurd hid (List.not_mem_nil id)

theorem runStarts_inv (mss : List ℤ) :
    ∀ s, TimerInv s → TimerInv (runStarts s mss) := by
  induction mss with
  | nil => intro s h; exact h
  | cons ms rest ih =>
      intro s h
      exact ih _ (startAutoRefresh_spec s ms h).1

/-- Claim C9: after any sequence of `startAutoRefresh` calls from the
initial state at most one interval timer is active — each call cancels
the previously stored timer before installing a new one — and starting
the scheduler twice with positive intervals leaves exactly one active
timer. -/
theorem claim_C9_single_timer :
    (∀ mss : List ℤ, (runStarts initTimerState mss).active.length ≤ 1) ∧
    (∀ ms1 ms2 : ℤ, 0 < ms1 → 0 < ms2 →
      (startAutoRefresh (startAutoRefresh initTimerState ms1) ms2).active.length
        = 1) := by
  constructor
  · intro mss
    exact (runStarts_inv mss initTimerState timerInv_init).2.1
  · intro ms1 ms2 hm1 hm2
    have hinv1 := (startAutoRefresh_spec initTimerState ms1 timerInv_init).1
    have hact := (startAutoRefresh_spec _ ms2 hinv1).2.1 hm2
    rw [hact]
    rfl

theorem claim_C9_witness :
    ((0:ℤ) < 5 ∧ (0:ℤ) < 7) ∧
    (startAutoRefresh (startAutoRefresh initTimerState 5) 7).active.length = 1 :=
  ⟨⟨by decide, by decide⟩,
   claim_C9_single_timer.2 5 7 (by decide) (by decide)⟩
